import Mathlib

/-!
Shallow embedding of `src/train.py` (H2H-GCN implementation): the `train`
pipeline (task-based model selection, pre-trained check, parameter-group
assertions, the epoch loop with dual step-decay learning-rate schedules,
the eval/early-stopping logic, and the final return), plus `get_mean_std`.

External collaborators (the models, `load_data`, `categorize_params`,
torch optimizers) are abstracted: the loop is parametric in the metric
type, the comparator and the per-epoch validation metrics; the parameter
groups produced by `categorize_params` are arbitrary lists.  The
`StepLR` schedule, whose source is not in the repository, is modelled
from the spec.  Exact rational arithmetic replaces floats.
-/

/-- Configuration fields of `args` that drive the epoch loop of `train`
(`src/train.py`, lines 94-135).  `epochs` is `args.epoch` in
`range(1, args.epoch + 1)`; `step_lr_reduce_freq` and `step_lr_gamma`
are shared by both `StepLR` schedulers (lines 70-79); `stie_lr` and
`eucl_lr` are the two initial learning rates. -/
structure LoopCfg where
  epochs : Nat
  eval_freq : Nat
  patience : Nat
  min_epochs : Nat
  step_lr_reduce_freq : Nat
  step_lr_gamma : ℚ
  stie_lr : ℚ
  eucl_lr : ℚ
deriving DecidableEq, Repr

/-- Modelled from the spec: the state of one `StepLR` step-decay
learning-rate schedule (the torch source is not in the repository).
`count` is the number of `step()` calls so far; `lr` is the owning
optimizer's current learning rate. -/
structure Sched where
  count : Nat
  lr : ℚ
deriving DecidableEq, Repr

/-- Modelled from the spec: one `step()` call of a `StepLR` schedule with
step interval `k` and decay multiplier `γ`: the learning rate is
multiplied by `γ` exactly when the step interval has elapsed since the
last decay, otherwise it is unchanged. -/
def schedStep (k : Nat) (γ : ℚ) (s : Sched) : Sched :=
  { count := s.count + 1
    lr := if (s.count + 1) % k = 0 then s.lr * γ else s.lr }

/-- The schedule state after `m` `step()` calls from initial rate `lr0`. -/
def schedAfter (k : Nat) (γ : ℚ) (lr0 : ℚ) : Nat → Sched
  | 0 => { count := 0, lr := lr0 }
  | m + 1 => schedStep k γ (schedAfter k γ lr0 m)

/-- The mutable state of the epoch loop of `train` (`src/train.py`,
lines 91-135): the patience `counter`, `best_val_metrics` (of abstract
metric type `α`), whether (and at which epoch) the `break` of line 135
fired, how many epochs have executed, and the two scheduler states.
`best_test_metrics` (line 93) is initialised to `None` and no statement
of the loop body assigns it, so it is not part of the mutable state. -/
structure TState (α : Type) where
  counter : Nat
  best_val : α
  halted : Option Nat
  epochsRun : Nat
  stie_sched : Sched
  eucl_sched : Sched
deriving DecidableEq, Repr

/-- One iteration of the epoch loop at epoch `e` (`src/train.py`, lines
94-135).  When the loop has already `break`-ed the state is frozen (those
epochs never execute).  Otherwise: the training step runs and both
schedulers advance once (lines 104-107); then, exactly when
`epoch % eval_freq` is non-zero (line 118), validation metrics
`val e` are computed and compared by `cmp best_val (val e)`
(`model.compare_metrics(best_val_metrics, val_metrics)`, line 128): a
favorable comparison replaces `best_val` and resets `counter`; otherwise
`counter` increments and the loop breaks exactly when
`counter == patience and epoch > min_epochs` (line 133). -/
def stepEpoch (cfg : LoopCfg) (cmp : α → α → Bool) (val : Nat → α)
    (s : TState α) (e : Nat) : TState α :=
  match s.halted with
  | some _ => s
  | none =>
    let s1 : TState α :=
      { s with
        epochsRun := s.epochsRun + 1
        stie_sched := schedStep cfg.step_lr_reduce_freq cfg.step_lr_gamma s.stie_sched
        eucl_sched := schedStep cfg.step_lr_reduce_freq cfg.step_lr_gamma s.eucl_sched }
    if e % cfg.eval_freq ≠ 0 then
      let v := val e
      if cmp s1.best_val v then
        { s1 with best_val := v, counter := 0 }
      else
        let c := s1.counter + 1
        { s1 with
          counter := c
          halted := if c = cfg.patience ∧ cfg.min_epochs < e then some e else none }
    else s1

/-- Run the loop body over a list of epoch numbers. -/
def runEpochs (cfg : LoopCfg) (cmp : α → α → Bool) (val : Nat → α) :
    List Nat → TState α → TState α
  | [], s => s
  | e :: es, s => runEpochs cfg cmp val es (stepEpoch cfg cmp val s e)

/-- The loop state right before epoch 1 (`src/train.py`, lines 91-93):
`counter = 0`, `best_val_metrics = model.init_metric_dict()` (the
sentinel `init`), no break, and both schedulers fresh at their
configured initial learning rates. -/
def initState (cfg : LoopCfg) (init : α) : TState α :=
  { counter := 0
    best_val := init
    halted := none
    epochsRun := 0
    stie_sched := { count := 0, lr := cfg.stie_lr }
    eucl_sched := { count := 0, lr := cfg.eucl_lr } }

/-- The loop state after the epochs `1, …, m` of
`for epoch in range(1, args.epoch + 1)` have been considered. -/
def runUpTo (cfg : LoopCfg) (cmp : α → α → Bool) (val : Nat → α)
    (init : α) (m : Nat) : TState α :=
  runEpochs cfg cmp val (List.range' 1 m) (initState cfg init)

/-- The full epoch loop of `train`. -/
def runLoop (cfg : LoopCfg) (cmp : α → α → Bool) (val : Nat → α)
    (init : α) : TState α :=
  runUpTo cfg cmp val init cfg.epochs

/-- The loop specialised to epoch-indexed comparison outcomes: validation
metrics are identified with their epoch number and the comparator's
verdict at epoch `e` is `fav e`; the initial sentinel is `0`.  The
retained `best_val` is then the epoch of the last favorable comparison. -/
def runFavUpTo (cfg : LoopCfg) (fav : Nat → Bool) (m : Nat) : TState Nat :=
  runUpTo cfg (fun _ v => fav v) (fun e => e) 0 m

/-- `runLoop` under epoch-indexed comparison outcomes. -/
def runFav (cfg : LoopCfg) (fav : Nat → Bool) : TState Nat :=
  runFavUpTo cfg fav cfg.epochs

/-- The evaluation epochs in the interval `(a, b]`: those epochs `e` with
`e % eval_freq` non-zero, the cadence of line 118 of `src/train.py`. -/
def evalEpochsIn (cfg : LoopCfg) (a b : Nat) : List Nat :=
  (List.range' (a + 1) (b - a)).filter (fun e => e % cfg.eval_freq != 0)

/-- The two model variants imported in `src/train.py` line 11. -/
inductive ModelKind where
  | LPModel
  | NCModel
deriving DecidableEq, Repr

/-- The fatal errors `train` can raise: `ValueError` on an invalid task
(line 56), `NotImplementedError` for pre-trained models (line 59), the
`assert` failures for empty parameter groups (lines 66-67), the
`TypeError` from subscripting `None` in the final return (lines 140-142),
and the `assert False` fallthrough (line 143). -/
inductive TrainError where
  | invalidTask
  | preTrainedUnsupported
  | emptyStiefelParams
  | emptyEuclideanParams
  | noneNotSubscriptable
  | assertFalse
deriving DecidableEq, Repr

/-- The model-selection branch of `train` (`src/train.py`, lines 45-57),
exactly as the source has it: the `nc` branch constructs `LPModel`
(line 47) and the `lp` branch constructs `NCModel` (line 52); any other
task name raises `ValueError`. -/
def selectModel (task : String) : Except TrainError ModelKind :=
  if task = "nc" then Except.ok ModelKind.LPModel
  else if task = "lp" then Except.ok ModelKind.NCModel
  else Except.error TrainError.invalidTask

/-- A metrics record with the two scalar fields the final return of
`train` indexes (`best_test_metrics['roc']`, `best_test_metrics['f1']`). -/
structure MetricsRec where
  roc : ℚ
  f1 : ℚ
deriving DecidableEq, Repr

/-- The final return of `train` (`src/train.py`, lines 139-143):
subscripting `bt` when it is `None` raises `TypeError`; an unexpected
task reaches `assert False`. -/
def finalReturn (task : String) (bt : Option MetricsRec) : Except TrainError ℚ :=
  if task = "lp" then
    match bt with
    | some m => Except.ok m.roc
    | none => Except.error TrainError.noneNotSubscriptable
  else if task = "nc" then
    match bt with
    | some m => Except.ok m.f1
    | none => Except.error TrainError.noneNotSubscriptable
  else Except.error TrainError.assertFalse

instance {ε σ : Type} [DecidableEq ε] [DecidableEq σ] : DecidableEq (Except ε σ)
  | Except.error a, Except.error b =>
    if h : a = b then isTrue (h ▸ rfl) else isFalse (fun hh => h (Except.error.inj hh))
  | Except.error _, Except.ok _ => isFalse (fun hh => Except.noConfusion hh)
  | Except.ok _, Except.error _ => isFalse (fun hh => Except.noConfusion hh)
  | Except.ok a, Except.ok b =>
    if h : a = b then isTrue (h ▸ rfl) else isFalse (fun hh => h (Except.ok.inj hh))

/-- The non-loop configuration of `train`. -/
structure TrainArgs where
  task : String
  pre_trained : Bool
  loop : LoopCfg
deriving DecidableEq, Repr

/-- Observable trace of one call of `train`: which model was constructed,
whether the optimizers/schedulers were constructed (lines 68-79), the
final loop state when the loop was reached, and the outcome. -/
structure TrainTrace (α : Type) where
  model : Option ModelKind
  optimBuilt : Bool
  loopState : Option (TState α)
  result : Except TrainError ℚ
deriving DecidableEq, Repr

/-- The control flow of `train` (`src/train.py`, lines 22-143), staged as
in the source: model selection / task validation (45-57), the
pre-trained check (58-60), the parameter-group assertions on the output
`stie_params, eucl_params` of the external `categorize_params` (65-67),
optimizer/scheduler construction (68-79), the epoch loop (94-135), and
the final return (139-143).  `best_test_metrics` is `None` at line 93
and no later statement assigns it, so the final return indexes `none`. -/
def trainRun (args : TrainArgs) (stie_params eucl_params : List π)
    (cmp : α → α → Bool) (val : Nat → α) (init : α) : TrainTrace α :=
  match selectModel args.task with
  | Except.error e => { model := none, optimBuilt := false, loopState := none, result := Except.error e }
  | Except.ok mk =>
    if args.pre_trained then
      { model := some mk, optimBuilt := false, loopState := none
        result := Except.error TrainError.preTrainedUnsupported }
    else if stie_params.length = 0 then
      { model := some mk, optimBuilt := false, loopState := none
        result := Except.error TrainError.emptyStiefelParams }
    else if eucl_params.length = 0 then
      { model := some mk, optimBuilt := false, loopState := none
        result := Except.error TrainError.emptyEuclideanParams }
    else
      { model := some mk, optimBuilt := true
        loopState := some (runLoop args.loop cmp val init)
        result := finalReturn args.task none }

/-- `np.mean`: the arithmetic mean (exact rational arithmetic). -/
def np_mean (l : List ℚ) : ℚ := l.sum / l.length

/-- `np.var` with the default `ddof=0`: the population variance, which is
the square of `np.std`.  `np.std l = Real.sqrt (np_var l)`; the square
root of a rational is in general irrational, so the development works
with the squared value throughout. -/
def np_var (l : List ℚ) : ℚ :=
  (l.map (fun a => (a - np_mean l) ^ 2)).sum / l.length

/-- The rescaling step of `get_mean_std` (`src/train.py`, lines 147-148):
if any collected result is negative, every result is multiplied by 100. -/
def rescaleAcc (acc : List ℚ) : List ℚ :=
  if ∃ a ∈ acc, a < 0 then acc.map (fun a => a * 100) else acc

/-- `get_mean_std` (`src/train.py`, lines 146-149) with the final
standard deviation represented by its square (the population variance):
the source returns `(np.mean(acc), np.std(acc))` after the sign-based
rescale, and `np.std(acc) = sqrt(np_var acc)`. -/
def get_mean_stdsq (acc : List ℚ) : ℚ × ℚ :=
  (np_mean (rescaleAcc acc), np_var (rescaleAcc acc))

/-! ### Basic loop lemmas -/

theorem runEpochs_append (cfg : LoopCfg) (cmp : α → α → Bool) (val : Nat → α)
    (l1 l2 : List Nat) (s : TState α) :
    runEpochs cfg cmp val (l1 ++ l2) s = runEpochs cfg cmp val l2 (runEpochs cfg cmp val l1 s) := by
  induction l1 generalizing s with
  | nil => rfl
  | cons e es ih => simp [runEpochs, ih]

theorem runUpTo_succ (cfg : LoopCfg) (cmp : α → α → Bool) (val : Nat → α)
    (init : α) (m : Nat) :
    runUpTo cfg cmp val init (m + 1)
      = stepEpoch cfg cmp val (runUpTo cfg cmp val init m) (m + 1) := by
  have h : List.range' 1 (m + 1) = List.range' 1 m ++ [m + 1] := by
    have h0 : List.range' 1 (m + 1) 1 = List.range' 1 m 1 ++ [1 + 1 * m] :=
      List.range'_concat 1 m
    simpa [Nat.add_comm] using h0
  unfold runUpTo
  rw [h, runEpochs_append]
  rfl

theorem stepEpoch_frozen (cfg : LoopCfg) (cmp : α → α → Bool) (val : Nat → α)
    (s : TState α) (e h : Nat) (hh : s.halted = some h) :
    stepEpoch cfg cmp val s e = s := by
  simp [stepEpoch, hh]

theorem runEpochs_frozen (cfg : LoopCfg) (cmp : α → α → Bool) (val : Nat → α)
    (l : List Nat) (s : TState α) (h : Nat) (hh : s.halted = some h) :
    runEpochs cfg cmp val l s = s := by
  induction l with
  | nil => rfl
  | cons e es ih => simp [runEpochs, stepEpoch_frozen cfg cmp val s e h hh, ih]

theorem runUpTo_frozen (cfg : LoopCfg) (cmp : α → α → Bool) (val : Nat → α)
    (init : α) (m h : Nat) (hh : (runUpTo cfg cmp val init m).halted = some h) :
    ∀ n, m ≤ n → runUpTo cfg cmp val init n = runUpTo cfg cmp val init m := by
  intro n hn
  refine Nat.le_induction rfl (fun n hmn ih => ?_) n hn
  rw [runUpTo_succ, ih, stepEpoch_frozen cfg cmp val _ _ h hh]

theorem runUpTo_halted_none_pred (cfg : LoopCfg) (cmp : α → α → Bool) (val : Nat → α)
    (init : α) (m : Nat) (h : (runUpTo cfg cmp val init (m + 1)).halted = none) :
    (runUpTo cfg cmp val init m).halted = none := by
  cases hh : (runUpTo cfg cmp val init m).halted with
  | none => rfl
  | some k =>
    have hfr := runUpTo_frozen cfg cmp val init m k hh (m + 1) (Nat.le_succ m)
    rw [hfr, hh] at h
    exact absurd h (by simp)

/-! ### Shapes of one non-frozen epoch step -/

theorem stepEpoch_of_none_noneval (cfg : LoopCfg) (cmp : α → α → Bool) (val : Nat → α)
    (s : TState α) (e : Nat) (hh : s.halted = none) (he : e % cfg.eval_freq = 0) :
    stepEpoch cfg cmp val s e =
      { s with
        epochsRun := s.epochsRun + 1
        stie_sched := schedStep cfg.step_lr_reduce_freq cfg.step_lr_gamma s.stie_sched
        eucl_sched := schedStep cfg.step_lr_reduce_freq cfg.step_lr_gamma s.eucl_sched } := by
  simp [stepEpoch, hh, he]

theorem stepEpoch_of_none_eval_fav (cfg : LoopCfg) (cmp : α → α → Bool) (val : Nat → α)
    (s : TState α) (e : Nat) (hh : s.halted = none) (he : e % cfg.eval_freq ≠ 0)
    (hf : cmp s.best_val (val e) = true) :
    stepEpoch cfg cmp val s e =
      { s with
        counter := 0
        best_val := val e
        epochsRun := s.epochsRun + 1
        stie_sched := schedStep cfg.step_lr_reduce_freq cfg.step_lr_gamma s.stie_sched
        eucl_sched := schedStep cfg.step_lr_reduce_freq cfg.step_lr_gamma s.eucl_sched } := by
  simp [stepEpoch, hh, he, hf]

theorem stepEpoch_of_none_eval_unfav (cfg : LoopCfg) (cmp : α → α → Bool) (val : Nat → α)
    (s : TState α) (e : Nat) (hh : s.halted = none) (he : e % cfg.eval_freq ≠ 0)
    (hf : cmp s.best_val (val e) = false) :
    stepEpoch cfg cmp val s e =
      { s with
        counter := s.counter + 1
        halted := if s.counter + 1 = cfg.patience ∧ cfg.min_epochs < e then some e else none
        epochsRun := s.epochsRun + 1
        stie_sched := schedStep cfg.step_lr_reduce_freq cfg.step_lr_gamma s.stie_sched
        eucl_sched := schedStep cfg.step_lr_reduce_freq cfg.step_lr_gamma s.eucl_sched } := by
  simp [stepEpoch, hh, he, hf]

/-! ### Schedule lemmas -/

theorem schedAfter_count (k : Nat) (γ lr0 : ℚ) (m : Nat) :
    (schedAfter k γ lr0 m).count = m := by
  induction m with
  | zero => rfl
  | succ m ih => simp [schedAfter, schedStep, ih]

theorem schedAfter_lr (k : Nat) (γ lr0 : ℚ) (hk : 0 < k) (m : Nat) :
    (schedAfter k γ lr0 m).lr = lr0 * γ ^ (m / k) := by
  induction m with
  | zero => simp [schedAfter, Nat.zero_div]
  | succ m ih =>
    have hcnt := schedAfter_count k γ lr0 m
    by_cases hd : (m + 1) % k = 0
    · have hdvd : k ∣ m + 1 := Nat.dvd_iff_mod_eq_zero.mpr hd
      have hdiv : (m + 1) / k = m / k + 1 := Nat.succ_div_of_dvd hdvd
      simp [schedAfter, schedStep, hcnt, hd, ih, hdiv, pow_succ, mul_assoc]
    · have hndvd : ¬ k ∣ m + 1 := fun hc => hd (Nat.dvd_iff_mod_eq_zero.mp hc)
      have hdiv : (m + 1) / k = m / k := Nat.succ_div_of_not_dvd hndvd
      simp [schedAfter, schedStep, hcnt, hd, ih, hdiv]

theorem runUpTo_sched (cfg : LoopCfg) (cmp : α → α → Bool) (val : Nat → α) (init : α) :
    ∀ m, (runUpTo cfg cmp val init m).stie_sched
            = schedAfter cfg.step_lr_reduce_freq cfg.step_lr_gamma cfg.stie_lr
                ((runUpTo cfg cmp val init m).epochsRun)
          ∧ (runUpTo cfg cmp val init m).eucl_sched
            = schedAfter cfg.step_lr_reduce_freq cfg.step_lr_gamma cfg.eucl_lr
                ((runUpTo cfg cmp val init m).epochsRun) := by
  intro m
  induction m with
  | zero => exact ⟨rfl, rfl⟩
  | succ m ih =>
    rw [runUpTo_succ]
    cases hh : (runUpTo cfg cmp val init m).halted with
    | some k =>
      rw [stepEpoch_frozen cfg cmp val _ _ k hh]
      exact ih
    | none =>
      by_cases he : (m + 1) % cfg.eval_freq = 0
      · rw [stepEpoch_of_none_noneval cfg cmp val _ _ hh he]
        simp only [schedAfter]
        exact ⟨by rw [ih.1], by rw [ih.2]⟩
      · cases hf : cmp (runUpTo cfg cmp val init m).best_val (val (m + 1)) with
        | true =>
          rw [stepEpoch_of_none_eval_fav cfg cmp val _ _ hh he hf]
          simp only [schedAfter]
          exact ⟨by rw [ih.1], by rw [ih.2]⟩
        | false =>
          rw [stepEpoch_of_none_eval_unfav cfg cmp val _ _ hh he hf]
          simp only [schedAfter]
          exact ⟨by rw [ih.1], by rw [ih.2]⟩

/-! ### Epochs-run and early-stop-epoch lemmas -/

theorem runUpTo_epochsRun_of_none (cfg : LoopCfg) (cmp : α → α → Bool) (val : Nat → α)
    (init : α) : ∀ m, (runUpTo cfg cmp val init m).halted = none →
    (runUpTo cfg cmp val init m).epochsRun = m := by
  intro m
  induction m with
  | zero => intro _; rfl
  | succ m ih =>
    intro h
    have hm : (runUpTo cfg cmp val init m).halted = none :=
      runUpTo_halted_none_pred cfg cmp val init m h
    rw [runUpTo_succ] at h ⊢
    by_cases he : (m + 1) % cfg.eval_freq = 0
    · rw [stepEpoch_of_none_noneval cfg cmp val _ _ hm he]
      simp [ih hm]
    · cases hf : cmp (runUpTo cfg cmp val init m).best_val (val (m + 1)) with
      | true =>
        rw [stepEpoch_of_none_eval_fav cfg cmp val _ _ hm he hf]
        simp [ih hm]
      | false =>
        rw [stepEpoch_of_none_eval_unfav cfg cmp val _ _ hm he hf]
        simp [ih hm]

theorem runUpTo_halt_bounds (cfg : LoopCfg) (cmp : α → α → Bool) (val : Nat → α)
    (init : α) : ∀ m h, (runUpTo cfg cmp val init m).halted = some h →
    cfg.min_epochs < h ∧ 1 ≤ h ∧ h ≤ m ∧ (runUpTo cfg cmp val init m).epochsRun = h := by
  intro m
  induction m with
  | zero => intro h hh; exact absurd hh (by simp [runUpTo, runEpochs, initState])
  | succ m ih =>
    intro h hh
    rw [runUpTo_succ] at hh ⊢
    cases hm : (runUpTo cfg cmp val init m).halted with
    | some k =>
      rw [stepEpoch_frozen cfg cmp val _ _ k hm] at hh ⊢
      obtain ⟨h1, h2, h3, h4⟩ := ih h hh
      exact ⟨h1, h2, Nat.le_succ_of_le h3, h4⟩
    | none =>
      by_cases he : (m + 1) % cfg.eval_freq = 0
      · rw [stepEpoch_of_none_noneval cfg cmp val _ _ hm he] at hh
        exact absurd hh (by simp [hm])
      · cases hf : cmp (runUpTo cfg cmp val init m).best_val (val (m + 1)) with
        | true =>
          rw [stepEpoch_of_none_eval_fav cfg cmp val _ _ hm he hf] at hh
          exact absurd hh (by simp [hm])
        | false =>
          rw [stepEpoch_of_none_eval_unfav cfg cmp val _ _ hm he hf] at hh ⊢
          simp only at hh
          by_cases hc : (runUpTo cfg cmp val init m).counter + 1 = cfg.patience
              ∧ cfg.min_epochs < m + 1
          · rw [if_pos hc] at hh
            have hhm : h = m + 1 := by
              have := hh
              simpa using this.symm
            subst hhm
            refine ⟨hc.2, Nat.succ_le_succ (Nat.zero_le m), le_refl _, ?_⟩
            simp [if_pos hc, runUpTo_epochsRun_of_none cfg cmp val init m hm]
          · rw [if_neg hc] at hh
            exact absurd hh (by simp)

/-! ### Counting evaluation epochs -/

theorem mem_evalEpochsIn (cfg : LoopCfg) (a b e : Nat) :
    e ∈ evalEpochsIn cfg a b ↔ (a < e ∧ e ≤ b ∧ e % cfg.eval_freq ≠ 0) := by
  unfold evalEpochsIn
  simp only [List.mem_filter, List.mem_range'_1, bne_iff_ne, ne_eq, decide_not]
  constructor
  · rintro ⟨⟨h1, h2⟩, h3⟩
    refine ⟨by omega, by omega, by simpa using h3⟩
  · rintro ⟨h1, h2, h3⟩
    refine ⟨⟨by omega, by omega⟩, by simpa using h3⟩

theorem evalEpochsIn_split (cfg : LoopCfg) (a b c : Nat) (hab : a ≤ b) (hbc : b ≤ c) :
    evalEpochsIn cfg a c = evalEpochsIn cfg a b ++ evalEpochsIn cfg b c := by
  unfold evalEpochsIn
  rw [← List.filter_append]
  congr 1
  have h1 : c - a = (c - b) + (b - a) := by omega
  have h2 : b + 1 = (a + 1) + (b - a) := by omega
  rw [h1, h2]
  exact (List.range'_append_1 (a + 1) (b - a) (c - b)).symm

theorem evalEpochsIn_single (cfg : LoopCfg) (m : Nat) :
    evalEpochsIn cfg m (m + 1)
      = if (m + 1) % cfg.eval_freq ≠ 0 then [m + 1] else [] := by
  unfold evalEpochsIn
  have h : m + 1 - m = 1 := by omega
  rw [h, List.range'_one]
  by_cases he : (m + 1) % cfg.eval_freq = 0 <;> simp [he]

theorem evalEpochsIn_succ_of_le (cfg : LoopCfg) (a m : Nat) (h : a ≤ m) :
    evalEpochsIn cfg a (m + 1)
      = evalEpochsIn cfg a m ++ (if (m + 1) % cfg.eval_freq ≠ 0 then [m + 1] else []) := by
  rw [evalEpochsIn_split cfg a m (m + 1) h (Nat.le_succ m), evalEpochsIn_single]

theorem evalEpochsIn_ge_one (cfg : LoopCfg) (a b e : Nat)
    (h : e ∈ evalEpochsIn cfg a b) : 1 ≤ (evalEpochsIn cfg a b).length :=
  List.length_pos.mpr (fun hnil => by simp [hnil] at h)

/-! ### The fav-indexed loop -/

theorem runFavUpTo_succ (cfg : LoopCfg) (fav : Nat → Bool) (m : Nat) :
    runFavUpTo cfg fav (m + 1)
      = stepEpoch cfg (fun _ v => fav v) (fun e => e) (runFavUpTo cfg fav m) (m + 1) :=
  runUpTo_succ cfg (fun _ v => fav v) (fun e => e) 0 m

/-- Once the counter has reached `patience` without triggering the break,
strict equality can never hold again while comparisons stay unfavorable:
the loop never halts and the counter keeps climbing. -/
theorem counter_past_patience_inv (cfg : LoopCfg) (fav : Nat → Bool) (e0 : Nat)
    (h1 : (runFavUpTo cfg fav e0).counter = cfg.patience)
    (h2 : (runFavUpTo cfg fav e0).halted = none)
    (hfalse : ∀ e ∈ evalEpochsIn cfg e0 cfg.epochs, fav e = false) :
    ∀ m, e0 ≤ m → m ≤ cfg.epochs →
      (runFavUpTo cfg fav m).halted = none
      ∧ (runFavUpTo cfg fav m).counter
          = cfg.patience + (evalEpochsIn cfg e0 m).length := by
  intro m hm
  refine Nat.le_induction ?_ (fun m hmn ih => ?_) m hm
  · intro _
    refine ⟨h2, ?_⟩
    unfold evalEpochsIn
    simp [Nat.sub_self, h1]
  · intro hme
    have hmle : m ≤ cfg.epochs := Nat.le_of_succ_le hme
    obtain ⟨ihh, ihc⟩ := ih hmle
    rw [runFavUpTo_succ]
    by_cases he : (m + 1) % cfg.eval_freq = 0
    · rw [stepEpoch_of_none_noneval _ _ _ _ _ ihh he]
      rw [evalEpochsIn_succ_of_le cfg e0 m hmn]
      simp [he, ihh, ihc]
    · have hmem : (m + 1) ∈ evalEpochsIn cfg e0 cfg.epochs :=
        (mem_evalEpochsIn cfg e0 cfg.epochs (m + 1)).mpr ⟨by omega, hme, he⟩
      have hfm : fav (m + 1) = false := hfalse (m + 1) hmem
      rw [stepEpoch_of_none_eval_unfav _ _ _ _ _ ihh he hfm]
      have hne : ¬ ((runFavUpTo cfg fav m).counter + 1 = cfg.patience
          ∧ cfg.min_epochs < m + 1) := by
        rintro ⟨hc, -⟩
        omega
      rw [evalEpochsIn_succ_of_le cfg e0 m hmn]
      simp [he, ihc]
      omega

/-- State of the loop just after the epoch `f` of the last favorable
comparison (or at start when `f = 0`): counter reset, `best_val = f`. -/
theorem state_after_fav (cfg : LoopCfg) (fav : Nat → Bool) (f : Nat)
    (hnohalt : (runFavUpTo cfg fav f).halted = none)
    (hf : f = 0 ∨ (0 < f ∧ f % cfg.eval_freq ≠ 0 ∧ fav f = true)) :
    (runFavUpTo cfg fav f).counter = 0 ∧ (runFavUpTo cfg fav f).best_val = f := by
  rcases hf with rfl | ⟨hpos, heval, hfav⟩
  · exact ⟨rfl, rfl⟩
  · obtain ⟨g, rfl⟩ : ∃ g, f = g + 1 := ⟨f - 1, by omega⟩
    have hg : (runFavUpTo cfg fav g).halted = none :=
      runUpTo_halted_none_pred cfg (fun _ v => fav v) (fun e => e) 0 g hnohalt
    rw [runFavUpTo_succ]
    rw [stepEpoch_of_none_eval_fav cfg (fun _ v => fav v) (fun e => e) _ _ hg heval hfav]
    exact ⟨rfl, rfl⟩

/-- During a streak of unfavorable evaluations following the last
favorable comparison at `f`, the counter equals the number of evaluation
epochs since `f`, `best_val` stays at `f`, and — as long as the streak
is strictly shorter than `patience` — the break has not fired. -/
theorem streak_inv (cfg : LoopCfg) (fav : Nat → Bool) (f s : Nat)
    (hcnt0 : (runFavUpTo cfg fav f).counter = 0)
    (hbest : (runFavUpTo cfg fav f).best_val = f)
    (hhalt : (runFavUpTo cfg fav f).halted = none)
    (hfs : f < s)
    (hfalse : ∀ e ∈ evalEpochsIn cfg f s, fav e = false)
    (hlen : (evalEpochsIn cfg f s).length = cfg.patience)
    (hseval : s % cfg.eval_freq ≠ 0) :
    ∀ m, f ≤ m → m < s →
      (runFavUpTo cfg fav m).counter = (evalEpochsIn cfg f m).length
      ∧ (runFavUpTo cfg fav m).best_val = f
      ∧ (runFavUpTo cfg fav m).halted = none := by
  intro m hm
  refine Nat.le_induction ?_ (fun m hmn ih => ?_) m hm
  · intro _
    refine ⟨?_, hbest, hhalt⟩
    unfold evalEpochsIn
    simp [Nat.sub_self, hcnt0]
  · intro hms
    have hmlt : m < s := by omega
    obtain ⟨ihc, ihb, ihh⟩ := ih hmlt
    have hlt_pat : (evalEpochsIn cfg f (m + 1)).length < cfg.patience := by
      have hsplit := evalEpochsIn_split cfg f (m + 1) s (by omega) (by omega)
      have hsmem : s ∈ evalEpochsIn cfg (m + 1) s :=
        (mem_evalEpochsIn cfg (m + 1) s s).mpr ⟨by omega, le_refl s, hseval⟩
      have hge := evalEpochsIn_ge_one cfg (m + 1) s s hsmem
      have : cfg.patience
          = (evalEpochsIn cfg f (m + 1)).length + (evalEpochsIn cfg (m + 1) s).length := by
        rw [← hlen, hsplit, List.length_append]
      omega
    rw [runFavUpTo_succ]
    by_cases he : (m + 1) % cfg.eval_freq = 0
    · rw [stepEpoch_of_none_noneval _ _ _ _ _ ihh he]
      rw [evalEpochsIn_succ_of_le cfg f m hmn]
      refine ⟨?_, ihb, ihh⟩
      simp [he, ihc]
    · have hmem : (m + 1) ∈ evalEpochsIn cfg f s :=
        (mem_evalEpochsIn cfg f s (m + 1)).mpr ⟨by omega, by omega, he⟩
      have hfm : fav (m + 1) = false := hfalse (m + 1) hmem
      rw [stepEpoch_of_none_eval_unfav _ _ _ _ _ ihh he hfm]
      rw [evalEpochsIn_succ_of_le cfg f m hmn] at hlt_pat ⊢
      have hc1 : (runFavUpTo cfg fav m).counter + 1
          = (evalEpochsIn cfg f m ++ if (m + 1) % cfg.eval_freq ≠ 0 then [m + 1] else []).length := by
        simp [he, ihc]
      have hne : ¬ ((runFavUpTo cfg fav m).counter + 1 = cfg.patience
          ∧ cfg.min_epochs < m + 1) := by
        rintro ⟨hcc, -⟩
        rw [hc1] at hcc
        omega
      exact ⟨hc1, ihb, by simp [hne]⟩

/-- When a streak of exactly `patience` unfavorable evaluations follows
the state of `state_after_fav` and its last epoch `s` lies beyond
`min_epochs`, the break of line 135 fires at `s`: the loop halts there,
having run exactly `s` epochs, with `best_val` still the metrics of the
last favorable comparison. -/
theorem streak_halts_at (cfg : LoopCfg) (fav : Nat → Bool) (f s : Nat)
    (hcnt0 : (runFavUpTo cfg fav f).counter = 0)
    (hbest : (runFavUpTo cfg fav f).best_val = f)
    (hhalt : (runFavUpTo cfg fav f).halted = none)
    (hfs : f < s)
    (hfalse : ∀ e ∈ evalEpochsIn cfg f s, fav e = false)
    (hlen : (evalEpochsIn cfg f s).length = cfg.patience)
    (hseval : s % cfg.eval_freq ≠ 0)
    (hmin : cfg.min_epochs < s)
    (hse : s ≤ cfg.epochs) :
    (runFav cfg fav).halted = some s
    ∧ (runFav cfg fav).best_val = f
    ∧ (runFav cfg fav).epochsRun = s := by
  obtain ⟨t, rfl⟩ : ∃ t, s = t + 1 := ⟨s - 1, by omega⟩
  have hft : f ≤ t := by omega
  have hstate := streak_inv cfg fav f (t + 1) hcnt0 hbest hhalt hfs hfalse hlen hseval
      t hft (by omega)
  obtain ⟨htc, htb, hth⟩ := hstate
  have hmem : (t + 1) ∈ evalEpochsIn cfg f (t + 1) :=
    (mem_evalEpochsIn cfg f (t + 1) (t + 1)).mpr ⟨hfs, le_refl _, hseval⟩
  have hfm : fav (t + 1) = false := hfalse (t + 1) hmem
  have hcnt1 : (runFavUpTo cfg fav t).counter + 1 = cfg.patience := by
    rw [htc, ← hlen, evalEpochsIn_succ_of_le cfg f t hft]
    simp [hseval]
  have her : (runFavUpTo cfg fav t).epochsRun = t :=
    runUpTo_epochsRun_of_none cfg (fun _ v => fav v) (fun e => e) 0 t hth
  have hstep : (runFavUpTo cfg fav (t + 1)).halted = some (t + 1)
      ∧ (runFavUpTo cfg fav (t + 1)).best_val = f
      ∧ (runFavUpTo cfg fav (t + 1)).epochsRun = t + 1 := by
    rw [runFavUpTo_succ]
    rw [stepEpoch_of_none_eval_unfav _ _ _ _ _ hth hseval hfm]
    refine ⟨?_, htb, by simp [her]⟩
    simp [hcnt1, hmin]
  have hfr := runUpTo_frozen cfg (fun _ v => fav v) (fun e => e) 0 (t + 1) (t + 1)
      hstep.1 cfg.epochs hse
  unfold runFav runFavUpTo at *
  rw [hfr]
  exact hstep

/-! ### Claim theorems -/

/-- C1, counterexample to the claim as stated: with epochs = 5,
eval_freq = 10 (so every epoch is an evaluation epoch), patience = 2,
min_epochs = 3 and a comparator that always returns false, epochs 4 and 5
are `patience` consecutive unfavorable validation evaluations after epoch
`min_epochs`, yet the loop does not halt at epoch 5 — the counter passed
`patience` back at epoch 2 (not beyond `min_epochs`), strict equality
never holds again, and all 5 epochs run. -/
theorem early_stopping_counterexample :
    evalEpochsIn ⟨5, 10, 2, 3, 1, 1, 1, 1⟩ 3 5 = [4, 5]
    ∧ (∀ e ∈ evalEpochsIn ⟨5, 10, 2, 3, 1, 1, 1, 1⟩ 3 5,
        (fun (_ : Nat) => false) e = false)
    ∧ (evalEpochsIn ⟨5, 10, 2, 3, 1, 1, 1, 1⟩ 3 5).length
        = (⟨5, 10, 2, 3, 1, 1, 1, 1⟩ : LoopCfg).patience
    ∧ (⟨5, 10, 2, 3, 1, 1, 1, 1⟩ : LoopCfg).min_epochs < 4
    ∧ (runFav ⟨5, 10, 2, 3, 1, 1, 1, 1⟩ (fun _ => false)).halted ≠ some 5
    ∧ (runFav ⟨5, 10, 2, 3, 1, 1, 1, 1⟩ (fun _ => false)).halted = none
    ∧ (runFav ⟨5, 10, 2, 3, 1, 1, 1, 1⟩ (fun _ => false)).epochsRun = 5 := by
  decide

/-- C1 (amended): if, after the last favorable comparison at epoch `f`
(or from the start of training, `f = 0`) the loop has not yet stopped and
the comparator returns false on the following `patience` consecutive
validation evaluations, the last of which is an epoch `s` greater than
`min_epochs`, then the loop transitions to early-stopped exactly at
epoch `s`, runs no further epochs, and the retained best validation
metrics are those recorded at the last favorable comparison; moreover
(unamended part) no run ever early-stops at or before epoch
`min_epochs`. -/
theorem early_stopping_amended (cfg : LoopCfg) (fav : Nat → Bool) (f s : Nat)
    (hstart : f = 0 ∨ (0 < f ∧ f % cfg.eval_freq ≠ 0 ∧ fav f = true))
    (hnohalt : (runFavUpTo cfg fav f).halted = none)
    (hfs : f < s) (hse : s ≤ cfg.epochs)
    (hseval : s % cfg.eval_freq ≠ 0)
    (hmin : cfg.min_epochs < s)
    (hfalse : ∀ e ∈ evalEpochsIn cfg f s, fav e = false)
    (hlen : (evalEpochsIn cfg f s).length = cfg.patience) :
    ((runFav cfg fav).halted = some s
      ∧ (runFav cfg fav).epochsRun = s
      ∧ (runFav cfg fav).best_val = f)
    ∧ ∀ (cfg2 : LoopCfg) (fav2 : Nat → Bool) (h : Nat),
        (runFav cfg2 fav2).halted = some h → cfg2.min_epochs < h := by
  obtain ⟨hc0, hb⟩ := state_after_fav cfg fav f hnohalt hstart
  obtain ⟨h1, h2, h3⟩ :=
    streak_halts_at cfg fav f s hc0 hb hnohalt hfs hfalse hlen hseval hmin hse
  refine ⟨⟨h1, h3, h2⟩, ?_⟩
  intro cfg2 fav2 h hh
  exact (runUpTo_halt_bounds cfg2 (fun _ v => fav2 v) (fun e => e) 0 cfg2.epochs h hh).1

/-- Witness for `early_stopping_amended`: epochs = 6, eval_freq = 10,
patience = 2, min_epochs = 3; favorable only at epoch 3; the two
unfavorable evaluations at epochs 4 and 5 stop the run at epoch 5 with
best metrics from epoch 3. -/
theorem early_stopping_amended_witness :
    ((3 : Nat) = 0 ∨ (0 < 3 ∧ 3 % (⟨6, 10, 2, 3, 1, 1, 1, 1⟩ : LoopCfg).eval_freq ≠ 0
        ∧ (fun (e : Nat) => e == 3) 3 = true))
    ∧ (runFavUpTo ⟨6, 10, 2, 3, 1, 1, 1, 1⟩ (fun e => e == 3) 3).halted = none
    ∧ 3 < 5 ∧ 5 ≤ (⟨6, 10, 2, 3, 1, 1, 1, 1⟩ : LoopCfg).epochs
    ∧ 5 % (⟨6, 10, 2, 3, 1, 1, 1, 1⟩ : LoopCfg).eval_freq ≠ 0
    ∧ (⟨6, 10, 2, 3, 1, 1, 1, 1⟩ : LoopCfg).min_epochs < 5
    ∧ (∀ e ∈ evalEpochsIn ⟨6, 10, 2, 3, 1, 1, 1, 1⟩ 3 5, (fun (x : Nat) => x == 3) e = false)
    ∧ (evalEpochsIn ⟨6, 10, 2, 3, 1, 1, 1, 1⟩ 3 5).length
        = (⟨6, 10, 2, 3, 1, 1, 1, 1⟩ : LoopCfg).patience
    ∧ ((runFav ⟨6, 10, 2, 3, 1, 1, 1, 1⟩ (fun e => e == 3)).halted = some 5
        ∧ (runFav ⟨6, 10, 2, 3, 1, 1, 1, 1⟩ (fun e => e == 3)).epochsRun = 5
        ∧ (runFav ⟨6, 10, 2, 3, 1, 1, 1, 1⟩ (fun e => e == 3)).best_val = 3) :=
  ⟨by decide, by decide, by decide, by decide, by decide, by decide, by decide, by decide,
    (early_stopping_amended ⟨6, 10, 2, 3, 1, 1, 1, 1⟩ (fun e => e == 3) 3 5
      (by decide) (by decide) (by decide) (by decide) (by decide) (by decide)
      (by decide) (by decide)).1⟩

/-- C2: every run of `train` that reaches the end of the epoch loop —
valid task, pre-trained check passed, both parameter groups non-empty;
whether the loop completed or early-stopped — ends at the final return,
which indexes `best_test_metrics` with `'roc'` (task `lp`) or `'f1'`
(task `nc`); `best_test_metrics` is still `None` there, having never
been assigned after its initialization, so the run always fails with the
`TypeError` of subscripting `None`. -/
theorem final_return_always_fails {π α : Type} (args : TrainArgs)
    (stie_params eucl_params : List π) (cmp : α → α → Bool) (val : Nat → α) (init : α)
    (htask : args.task = "lp" ∨ args.task = "nc")
    (hpre : args.pre_trained = false)
    (hstie : stie_params.length ≠ 0)
    (heucl : eucl_params.length ≠ 0) :
    (trainRun args stie_params eucl_params cmp val init).loopState
        = some (runLoop args.loop cmp val init)
    ∧ (trainRun args stie_params eucl_params cmp val init).result
        = Except.error TrainError.noneNotSubscriptable := by
  have hlpnc : ("lp" : String) ≠ "nc" := by decide
  rcases htask with h | h <;>
    simp [trainRun, selectModel, h, hpre, hstie, heucl, finalReturn, hlpnc]

/-- Witness for `final_return_always_fails`: a link-prediction run with
one parameter in each group reaches the loop and then fails. -/
theorem final_return_always_fails_witness :
    ((⟨"lp", false, ⟨2, 1, 1, 1, 1, 1, 1, 1⟩⟩ : TrainArgs).task = "lp"
        ∨ (⟨"lp", false, ⟨2, 1, 1, 1, 1, 1, 1, 1⟩⟩ : TrainArgs).task = "nc")
    ∧ (⟨"lp", false, ⟨2, 1, 1, 1, 1, 1, 1, 1⟩⟩ : TrainArgs).pre_trained = false
    ∧ ([0] : List Nat).length ≠ 0
    ∧ ([1] : List Nat).length ≠ 0
    ∧ ((trainRun (⟨"lp", false, ⟨2, 1, 1, 1, 1, 1, 1, 1⟩⟩ : TrainArgs) [0] [1]
          (fun (_ _ : Nat) => true) (fun e => e) 0).loopState
        = some (runLoop ⟨2, 1, 1, 1, 1, 1, 1, 1⟩ (fun _ _ => true) (fun e => e) 0)
      ∧ (trainRun (⟨"lp", false, ⟨2, 1, 1, 1, 1, 1, 1, 1⟩⟩ : TrainArgs) [0] [1]
          (fun (_ _ : Nat) => true) (fun e => e) 0).result
        = Except.error TrainError.noneNotSubscriptable) :=
  ⟨Or.inl rfl, rfl, by decide, by decide,
    final_return_always_fails (⟨"lp", false, ⟨2, 1, 1, 1, 1, 1, 1, 1⟩⟩ : TrainArgs)
      [0] [1] (fun _ _ => true) (fun e => e) 0
      (Or.inl rfl) rfl (by decide) (by decide)⟩

/-- C3: `get_mean_std` multiplies every run result by 100 whenever any
result is negative, then aggregates with the arithmetic mean and the
population standard deviation; the standard deviation is represented
here by its square (`np.std` is the square root of `np_var`, and the
square root of a rational is in general irrational), so `std = 10` for
the example `[-0.8, -0.6]` is rendered as variance `100 = 10 ^ 2` with
`0 ≤ 10`: the rescale yields `[-80, -60]`, mean `-70` and std `10`. -/
theorem get_mean_std_spec (acc : List ℚ) (hne : acc ≠ [])
    (hneg : ∃ a ∈ acc, a < 0) :
    get_mean_stdsq acc
        = (np_mean (acc.map (fun a => a * 100)), np_var (acc.map (fun a => a * 100)))
    ∧ get_mean_stdsq [-(4/5 : ℚ), -(3/5 : ℚ)] = (-70, 100)
    ∧ (10 : ℚ) ^ 2 = (get_mean_stdsq [-(4/5 : ℚ), -(3/5 : ℚ)]).2
    ∧ (0 : ℚ) ≤ 10 := by
  have hx : ∃ a ∈ [-(4/5 : ℚ), -(3/5 : ℚ)], a < 0 := ⟨-(4/5), by norm_num, by norm_num⟩
  have hr : rescaleAcc [-(4/5 : ℚ), -(3/5 : ℚ)] = [-80, -60] := by
    unfold rescaleAcc
    rw [if_pos hx]
    norm_num
  have hmean : np_mean [(-80 : ℚ), -60] = -70 := by
    unfold np_mean
    norm_num
  have hconc : get_mean_stdsq [-(4/5 : ℚ), -(3/5 : ℚ)] = (-70, 100) := by
    unfold get_mean_stdsq
    rw [hr]
    unfold np_var
    rw [hmean]
    norm_num [np_mean]
  refine ⟨?_, hconc, by rw [hconc]; norm_num, by norm_num⟩
  unfold get_mean_stdsq rescaleAcc
  rw [if_pos hneg]

/-- Witness for `get_mean_std_spec` at the spec's own example list. -/
theorem get_mean_std_spec_witness :
    ([-(4/5 : ℚ), -(3/5 : ℚ)] ≠ [])
    ∧ (∃ a ∈ [-(4/5 : ℚ), -(3/5 : ℚ)], a < 0)
    ∧ (get_mean_stdsq [-(4/5 : ℚ), -(3/5 : ℚ)]
        = (np_mean ([-(4/5 : ℚ), -(3/5 : ℚ)].map (fun a => a * 100)),
           np_var ([-(4/5 : ℚ), -(3/5 : ℚ)].map (fun a => a * 100)))
      ∧ get_mean_stdsq [-(4/5 : ℚ), -(3/5 : ℚ)] = (-70, 100)
      ∧ (10 : ℚ) ^ 2 = (get_mean_stdsq [-(4/5 : ℚ), -(3/5 : ℚ)]).2
      ∧ (0 : ℚ) ≤ 10) :=
  ⟨by simp, ⟨-(4/5), by norm_num, by norm_num⟩,
    get_mean_std_spec [-(4/5 : ℚ), -(3/5 : ℚ)] (by simp)
      ⟨-(4/5), by norm_num, by norm_num⟩⟩

/-- C4: the parameter-group checks right after `categorize_params` fail
fast — the configuration-error assertion for zero Stiefel parameters,
then the one for zero Euclidean parameters — and the optimizers are
constructed (training proceeds past categorization) exactly when both
groups are non-empty. -/
theorem param_group_guard {π α : Type} (args : TrainArgs)
    (stie_params eucl_params : List π) (cmp : α → α → Bool) (val : Nat → α) (init : α)
    (htask : args.task = "lp" ∨ args.task = "nc")
    (hpre : args.pre_trained = false) :
    ((trainRun args stie_params eucl_params cmp val init).optimBuilt = true
        ↔ stie_params ≠ [] ∧ eucl_params ≠ [])
    ∧ (stie_params = [] →
        (trainRun args stie_params eucl_params cmp val init).result
          = Except.error TrainError.emptyStiefelParams)
    ∧ (stie_params ≠ [] → eucl_params = [] →
        (trainRun args stie_params eucl_params cmp val init).result
          = Except.error TrainError.emptyEuclideanParams) := by
  have hlpnc : ("lp" : String) ≠ "nc" := by decide
  by_cases hs : stie_params = []
  · subst hs
    rcases htask with h | h <;>
      simp [trainRun, selectModel, h, hpre, hlpnc]
  · have hs0 : stie_params.length ≠ 0 := by
      simpa [List.length_eq_zero] using hs
    by_cases he : eucl_params = []
    · subst he
      rcases htask with h | h <;>
        simp [trainRun, selectModel, h, hpre, hlpnc, hs, hs0]
    · have he0 : eucl_params.length ≠ 0 := by
        simpa [List.length_eq_zero] using he
      rcases htask with h | h <;>
        simp [trainRun, selectModel, h, hpre, hlpnc, hs, hs0, he, he0]

/-- Witness for `param_group_guard`: a node-classification run with an
empty Stiefel group trips the first assertion and never builds the
optimizers. -/
theorem param_group_guard_witness :
    ((⟨"nc", false, ⟨2, 1, 1, 1, 1, 1, 1, 1⟩⟩ : TrainArgs).task = "lp"
        ∨ (⟨"nc", false, ⟨2, 1, 1, 1, 1, 1, 1, 1⟩⟩ : TrainArgs).task = "nc")
    ∧ (⟨"nc", false, ⟨2, 1, 1, 1, 1, 1, 1, 1⟩⟩ : TrainArgs).pre_trained = false
    ∧ (((trainRun (⟨"nc", false, ⟨2, 1, 1, 1, 1, 1, 1, 1⟩⟩ : TrainArgs) ([] : List Nat) [5]
          (fun (_ _ : Nat) => true) (fun e => e) 0).optimBuilt = true
        ↔ ([] : List Nat) ≠ [] ∧ [5] ≠ [])
      ∧ (([] : List Nat) = [] →
          (trainRun (⟨"nc", false, ⟨2, 1, 1, 1, 1, 1, 1, 1⟩⟩ : TrainArgs) ([] : List Nat) [5]
            (fun (_ _ : Nat) => true) (fun e => e) 0).result
            = Except.error TrainError.emptyStiefelParams)
      ∧ (([] : List Nat) ≠ [] → [5] = [] →
          (trainRun (⟨"nc", false, ⟨2, 1, 1, 1, 1, 1, 1, 1⟩⟩ : TrainArgs) ([] : List Nat) [5]
            (fun (_ _ : Nat) => true) (fun e => e) 0).result
            = Except.error TrainError.emptyEuclideanParams)) :=
  ⟨Or.inr rfl, rfl,
    param_group_guard (⟨"nc", false, ⟨2, 1, 1, 1, 1, 1, 1, 1⟩⟩ : TrainArgs)
      ([] : List Nat) [5] (fun _ _ => true) (fun e => e) 0 (Or.inr rfl) rfl⟩

/-- C5: the source swaps the model variants: for task `nc` (the branch
that logs node classification and sets `n_classes`) it constructs
`LPModel`, and for task `lp` (the branch that sets the edge counts and
logs link prediction) it constructs `NCModel` — the opposite of the
claimed (and intended) pairing. -/
theorem model_selection_swapped :
    selectModel "nc" = Except.ok ModelKind.LPModel
    ∧ selectModel "lp" = Except.ok ModelKind.NCModel
    ∧ selectModel "nc" ≠ Except.ok ModelKind.NCModel
    ∧ selectModel "lp" ≠ Except.ok ModelKind.LPModel := by
  refine ⟨rfl, by decide, by decide, by decide⟩

/-- C8: a run whose task is neither `nc` nor `lp` fails immediately with
the configuration error for an invalid task: no model is selected, no
optimizer is constructed, and no epoch runs. -/
theorem invalid_task_fails_fast {π α : Type} (args : TrainArgs)
    (stie_params eucl_params : List π) (cmp : α → α → Bool) (val : Nat → α) (init : α)
    (h1 : args.task ≠ "nc") (h2 : args.task ≠ "lp") :
    (trainRun args stie_params eucl_params cmp val init).result
        = Except.error TrainError.invalidTask
    ∧ (trainRun args stie_params eucl_params cmp val init).optimBuilt = false
    ∧ (trainRun args stie_params eucl_params cmp val init).loopState = none
    ∧ (trainRun args stie_params eucl_params cmp val init).model = none := by
  simp [trainRun, selectModel, h1, h2]

/-- Witness for `invalid_task_fails_fast` at the task name `graph`. -/
theorem invalid_task_fails_fast_witness :
    (⟨"graph", false, ⟨2, 1, 1, 1, 1, 1, 1, 1⟩⟩ : TrainArgs).task ≠ "nc"
    ∧ (⟨"graph", false, ⟨2, 1, 1, 1, 1, 1, 1, 1⟩⟩ : TrainArgs).task ≠ "lp"
    ∧ ((trainRun (⟨"graph", false, ⟨2, 1, 1, 1, 1, 1, 1, 1⟩⟩ : TrainArgs) [0] [1]
          (fun (_ _ : Nat) => true) (fun (e : Nat) => e) 0).result
        = Except.error TrainError.invalidTask
      ∧ (trainRun (⟨"graph", false, ⟨2, 1, 1, 1, 1, 1, 1, 1⟩⟩ : TrainArgs) [0] [1]
          (fun (_ _ : Nat) => true) (fun (e : Nat) => e) 0).optimBuilt = false
      ∧ (trainRun (⟨"graph", false, ⟨2, 1, 1, 1, 1, 1, 1, 1⟩⟩ : TrainArgs) [0] [1]
          (fun (_ _ : Nat) => true) (fun (e : Nat) => e) 0).loopState = none
      ∧ (trainRun (⟨"graph", false, ⟨2, 1, 1, 1, 1, 1, 1, 1⟩⟩ : TrainArgs) [0] [1]
          (fun (_ _ : Nat) => true) (fun (e : Nat) => e) 0).model = none) :=
  ⟨by decide, by decide,
    invalid_task_fails_fast (⟨"graph", false, ⟨2, 1, 1, 1, 1, 1, 1, 1⟩⟩ : TrainArgs)
      [0] [1] (fun _ _ => true) (fun e => e) 0 (by decide) (by decide)⟩

/-- C6: a step-decay schedule with interval `k` and decay multiplier `γ`
has rate `initial_rate * γ ^ n` after `n * k` advance calls, is unchanged
by an advance that crosses no decay boundary, and (for a decay
multiplier, `0 ≤ γ ≤ 1`, and a non-negative initial rate) is
monotonically non-increasing; in the training loop both schedules are
advanced exactly once per executed epoch, so each scheduler's step count
equals the number of epochs run. -/
theorem lr_schedule_spec (k : Nat) (γ lr0 : ℚ) (n m : Nat)
    (cfg : LoopCfg) (cmp : α → α → Bool) (val : Nat → α) (init : α)
    (hk : 0 < k) (hγ0 : 0 ≤ γ) (hγ1 : γ ≤ 1) (hlr : 0 ≤ lr0) :
    (schedAfter k γ lr0 (n * k)).lr = lr0 * γ ^ n
    ∧ ((m + 1) % k ≠ 0 → (schedAfter k γ lr0 (m + 1)).lr = (schedAfter k γ lr0 m).lr)
    ∧ (schedAfter k γ lr0 (m + 1)).lr ≤ (schedAfter k γ lr0 m).lr
    ∧ (runLoop cfg cmp val init).stie_sched
        = schedAfter cfg.step_lr_reduce_freq cfg.step_lr_gamma cfg.stie_lr
            ((runLoop cfg cmp val init).epochsRun)
    ∧ (runLoop cfg cmp val init).eucl_sched
        = schedAfter cfg.step_lr_reduce_freq cfg.step_lr_gamma cfg.eucl_lr
            ((runLoop cfg cmp val init).epochsRun)
    ∧ (runLoop cfg cmp val init).stie_sched.count = (runLoop cfg cmp val init).epochsRun
    ∧ (runLoop cfg cmp val init).eucl_sched.count = (runLoop cfg cmp val init).epochsRun := by
  have hsched := runUpTo_sched cfg cmp val init cfg.epochs
  refine ⟨?_, ?_, ?_, hsched.1, hsched.2, ?_, ?_⟩
  · rw [schedAfter_lr k γ lr0 hk, Nat.mul_div_cancel n hk]
  · intro hnz
    have hndvd : ¬ k ∣ m + 1 := fun hc => hnz (Nat.dvd_iff_mod_eq_zero.mp hc)
    rw [schedAfter_lr k γ lr0 hk, schedAfter_lr k γ lr0 hk, Nat.succ_div_of_not_dvd hndvd]
  · rw [schedAfter_lr k γ lr0 hk, schedAfter_lr k γ lr0 hk]
    have hmono : m / k ≤ (m + 1) / k := Nat.div_le_div_right (Nat.le_succ m)
    have hpow : γ ^ ((m + 1) / k) ≤ γ ^ (m / k) := pow_le_pow_of_le_one hγ0 hγ1 hmono
    exact mul_le_mul_of_nonneg_left hpow hlr
  · show (runUpTo cfg cmp val init cfg.epochs).stie_sched.count
        = (runUpTo cfg cmp val init cfg.epochs).epochsRun
    rw [hsched.1, schedAfter_count]
  · show (runUpTo cfg cmp val init cfg.epochs).eucl_sched.count
        = (runUpTo cfg cmp val init cfg.epochs).epochsRun
    rw [hsched.2, schedAfter_count]

/-- Witness for `lr_schedule_spec`: interval 2, decay 1/2, initial rate
1, after 4 advances the rate is 1/4; a 3-epoch run advances both
schedulers 3 times. -/
theorem lr_schedule_spec_witness :
    ((0 : Nat) < 2 ∧ (0 : ℚ) ≤ 1/2 ∧ (1/2 : ℚ) ≤ 1 ∧ (0 : ℚ) ≤ 1)
    ∧ ((schedAfter 2 (1/2 : ℚ) 1 (2 * 2)).lr = 1 * (1/2 : ℚ) ^ 2
      ∧ ((0 + 1) % 2 ≠ 0 → (schedAfter 2 (1/2 : ℚ) 1 (0 + 1)).lr = (schedAfter 2 (1/2 : ℚ) 1 0).lr)
      ∧ (schedAfter 2 (1/2 : ℚ) 1 (0 + 1)).lr ≤ (schedAfter 2 (1/2 : ℚ) 1 0).lr
      ∧ (runLoop ⟨3, 10, 9, 9, 2, 1/2, 1, 1⟩ (fun (_ _ : Nat) => true) (fun e => e) 0).stie_sched
          = schedAfter 2 (1/2 : ℚ) 1
              ((runLoop ⟨3, 10, 9, 9, 2, 1/2, 1, 1⟩ (fun (_ _ : Nat) => true) (fun e => e) 0).epochsRun)
      ∧ (runLoop ⟨3, 10, 9, 9, 2, 1/2, 1, 1⟩ (fun (_ _ : Nat) => true) (fun e => e) 0).eucl_sched
          = schedAfter 2 (1/2 : ℚ) 1
              ((runLoop ⟨3, 10, 9, 9, 2, 1/2, 1, 1⟩ (fun (_ _ : Nat) => true) (fun e => e) 0).epochsRun)
      ∧ (runLoop ⟨3, 10, 9, 9, 2, 1/2, 1, 1⟩ (fun (_ _ : Nat) => true) (fun e => e) 0).stie_sched.count
          = (runLoop ⟨3, 10, 9, 9, 2, 1/2, 1, 1⟩ (fun (_ _ : Nat) => true) (fun e => e) 0).epochsRun
      ∧ (runLoop ⟨3, 10, 9, 9, 2, 1/2, 1, 1⟩ (fun (_ _ : Nat) => true) (fun e => e) 0).eucl_sched.count
          = (runLoop ⟨3, 10, 9, 9, 2, 1/2, 1, 1⟩ (fun (_ _ : Nat) => true) (fun e => e) 0).epochsRun) :=
  ⟨⟨by norm_num, by norm_num, by norm_num, by norm_num⟩,
    lr_schedule_spec 2 (1/2 : ℚ) 1 2 0 ⟨3, 10, 9, 9, 2, 1/2, 1, 1⟩
      (fun _ _ => true) (fun e => e) 0
      (by norm_num) (by norm_num) (by norm_num) (by norm_num)⟩

/-- Under `eval_freq = 1` no epoch satisfies the evaluation test, so the
whole loop leaves counter, best metrics and halt status untouched. -/
theorem runUpTo_eval_freq_one (cfg : LoopCfg) (cmp : α → α → Bool) (val : Nat → α)
    (init : α) (h : cfg.eval_freq = 1) :
    ∀ m, (runUpTo cfg cmp val init m).counter = 0
      ∧ (runUpTo cfg cmp val init m).best_val = init
      ∧ (runUpTo cfg cmp val init m).halted = none
      ∧ (runUpTo cfg cmp val init m).epochsRun = m := by
  intro m
  induction m with
  | zero => exact ⟨rfl, rfl, rfl, rfl⟩
  | succ m ih =>
    obtain ⟨ic, ib, ih0, ie⟩ := ih
    rw [runUpTo_succ]
    rw [stepEpoch_of_none_noneval cfg cmp val _ _ ih0 (by rw [h]; exact Nat.mod_one _)]
    exact ⟨ic, ib, ih0, by simp [ie]⟩

/-- C9: validation runs only on epochs with `epoch % eval_freq` non-zero
(the conditional of line 118 of `src/train.py` as written); hence with
`eval_freq = 1` validation never runs: the patience counter stays 0, the
best validation metrics stay at the initial sentinel, early stopping
never triggers, and the loop runs every configured epoch. -/
theorem eval_freq_one_never_stops (cfg : LoopCfg) (cmp : α → α → Bool) (val : Nat → α)
    (init : α) (h : cfg.eval_freq = 1) :
    (∀ (s : TState α) (e : Nat), e % cfg.eval_freq = 0 → s.halted = none →
        ((stepEpoch cfg cmp val s e).counter = s.counter
          ∧ (stepEpoch cfg cmp val s e).best_val = s.best_val
          ∧ (stepEpoch cfg cmp val s e).halted = none))
    ∧ (runLoop cfg cmp val init).counter = 0
    ∧ (runLoop cfg cmp val init).best_val = init
    ∧ (runLoop cfg cmp val init).halted = none
    ∧ (runLoop cfg cmp val init).epochsRun = cfg.epochs := by
  obtain ⟨hc, hb, hh, he⟩ := runUpTo_eval_freq_one cfg cmp val init h cfg.epochs
  refine ⟨?_, hc, hb, hh, he⟩
  intro s e hee hs
  rw [stepEpoch_of_none_noneval cfg cmp val s e hs hee]
  exact ⟨rfl, rfl, hs⟩

/-- Witness for `eval_freq_one_never_stops`: a 3-epoch run with
`eval_freq = 1` and an always-favorable comparator still never updates
its best metrics (sentinel 7) and never stops early. -/
theorem eval_freq_one_never_stops_witness :
    (⟨3, 1, 1, 9, 1, 1, 1, 1⟩ : LoopCfg).eval_freq = 1
    ∧ ((runLoop ⟨3, 1, 1, 9, 1, 1, 1, 1⟩ (fun (_ _ : Nat) => true) (fun e => e) 7).counter = 0
      ∧ (runLoop ⟨3, 1, 1, 9, 1, 1, 1, 1⟩ (fun (_ _ : Nat) => true) (fun e => e) 7).best_val = 7
      ∧ (runLoop ⟨3, 1, 1, 9, 1, 1, 1, 1⟩ (fun (_ _ : Nat) => true) (fun e => e) 7).halted = none
      ∧ (runLoop ⟨3, 1, 1, 9, 1, 1, 1, 1⟩ (fun (_ _ : Nat) => true) (fun e => e) 7).epochsRun
          = (⟨3, 1, 1, 9, 1, 1, 1, 1⟩ : LoopCfg).epochs) :=
  ⟨rfl,
    (eval_freq_one_never_stops ⟨3, 1, 1, 9, 1, 1, 1, 1⟩
      (fun _ _ => true) (fun e => e) 7 rfl).2⟩

/-- C10: the break test uses strict equality `counter == patience`,
checked only at the increment: once the counter reaches `patience` at an
epoch not beyond `min_epochs` without halting, further unfavorable
evaluations push the counter strictly past `patience`, the equality never
holds again, and the run never early-stops, executing every configured
epoch. -/
theorem strict_equality_overshoot (cfg : LoopCfg) (fav : Nat → Bool) (e0 : Nat)
    (h1 : (runFavUpTo cfg fav e0).counter = cfg.patience)
    (h2 : (runFavUpTo cfg fav e0).halted = none)
    (h3 : e0 ≤ cfg.min_epochs)
    (h4 : e0 ≤ cfg.epochs)
    (h5 : ∀ e ∈ evalEpochsIn cfg e0 cfg.epochs, fav e = false) :
    (runFav cfg fav).halted = none
    ∧ (runFav cfg fav).epochsRun = cfg.epochs
    ∧ (runFav cfg fav).counter
        = cfg.patience + (evalEpochsIn cfg e0 cfg.epochs).length := by
  obtain ⟨hh, hc⟩ :=
    counter_past_patience_inv cfg fav e0 h1 h2 h5 cfg.epochs h4 (le_refl _)
  exact ⟨hh,
    runUpTo_epochsRun_of_none cfg (fun _ v => fav v) (fun e => e) 0 cfg.epochs hh, hc⟩

/-- Witness for `strict_equality_overshoot`: patience 2 is reached at
epoch 2 (not beyond min_epochs 3); with the comparator always false the
5-epoch run never stops and ends with counter 5. -/
theorem strict_equality_overshoot_witness :
    (runFavUpTo ⟨5, 10, 2, 3, 1, 1, 1, 1⟩ (fun _ => false) 2).counter
        = (⟨5, 10, 2, 3, 1, 1, 1, 1⟩ : LoopCfg).patience
    ∧ (runFavUpTo ⟨5, 10, 2, 3, 1, 1, 1, 1⟩ (fun _ => false) 2).halted = none
    ∧ 2 ≤ (⟨5, 10, 2, 3, 1, 1, 1, 1⟩ : LoopCfg).min_epochs
    ∧ 2 ≤ (⟨5, 10, 2, 3, 1, 1, 1, 1⟩ : LoopCfg).epochs
    ∧ (∀ e ∈ evalEpochsIn ⟨5, 10, 2, 3, 1, 1, 1, 1⟩ 2 (⟨5, 10, 2, 3, 1, 1, 1, 1⟩ : LoopCfg).epochs,
        (fun (_ : Nat) => false) e = false)
    ∧ ((runFav ⟨5, 10, 2, 3, 1, 1, 1, 1⟩ (fun _ => false)).halted = none
      ∧ (runFav ⟨5, 10, 2, 3, 1, 1, 1, 1⟩ (fun _ => false)).epochsRun
          = (⟨5, 10, 2, 3, 1, 1, 1, 1⟩ : LoopCfg).epochs
      ∧ (runFav ⟨5, 10, 2, 3, 1, 1, 1, 1⟩ (fun _ => false)).counter
          = (⟨5, 10, 2, 3, 1, 1, 1, 1⟩ : LoopCfg).patience
            + (evalEpochsIn ⟨5, 10, 2, 3, 1, 1, 1, 1⟩ 2
                (⟨5, 10, 2, 3, 1, 1, 1, 1⟩ : LoopCfg).epochs).length) :=
  ⟨by decide, by decide, by decide, by decide, by decide,
    strict_equality_overshoot ⟨5, 10, 2, 3, 1, 1, 1, 1⟩ (fun _ => false) 2
      (by decide) (by decide) (by decide) (by decide) (by decide)⟩
